import Mathlib

/-!
Verification development for the pg-regress-to-JUnit converter core
(`cli/pg-regress/convert_to_junit.py` and its older near-duplicate
`cli/convert_to_junit.py`).

The Python source is shallowly embedded: file contents are `Option String`
(`none` = file absent), Python line iteration is modelled by an explicit
`splitlines`, and every Python string primitive used by the source
(`strip`, `rstrip`, `startswith`, slicing, `in`, `join`) is re-implemented
structurally on `List Char` so that all definitions evaluate by `decide`.
-/

/-! ## Python string primitives -/

/-- Whitespace characters recognised by Python's `str.strip` (ASCII subset). -/
def pySpace (c : Char) : Bool :=
  c = ' ' || c = '\t' || c = '\n' || c = '\r' || c = '\x0b' || c = '\x0c'

/-- Strip `pySpace` characters from both ends of a character list. -/
def pyStripL (cs : List Char) : List Char :=
  ((cs.dropWhile pySpace).reverse.dropWhile pySpace).reverse

/-- Python `s.strip()`. -/
def pyStrip (s : String) : String := ⟨pyStripL s.data⟩

/-- Python `s.rstrip()`. -/
def pyRStrip (s : String) : String := ⟨(s.data.reverse.dropWhile pySpace).reverse⟩

/-- Python `s.startswith(pre)`. -/
def strStartsWith (s pre : String) : Bool := pre.data.isPrefixOf s.data

/-- Python `s[1:]`. -/
def strTail (s : String) : String := ⟨s.data.drop 1⟩

/-- Python `"\n".join(lines)`. -/
def joinNL : List String → String
  | [] => ""
  | [s] => s
  | s :: rest => s ++ "\n" ++ joinNL rest

/-- Helper for `pySplitLines`: split a character list at newline characters,
mirroring Python's `str.splitlines` (no trailing empty line). -/
def splitLinesGo : List Char → List Char → List (List Char)
  | [], cur => [cur]
  | '\n' :: [], cur => [cur]
  | '\n' :: c :: rest, cur => cur :: splitLinesGo (c :: rest) []
  | c :: rest, cur => splitLinesGo rest (cur ++ [c])

/-- Python `s.splitlines()` (newline-only model). -/
def pySplitLines (s : String) : List String :=
  if s.data.isEmpty then [] else (splitLinesGo s.data []).map (fun l => ⟨l⟩)

/-- Substring containment on character lists (Python's `pat in s`). -/
def containsSub (pat : List Char) : List Char → Bool
  | [] => pat.isEmpty
  | c :: rest => pat.isPrefixOf (c :: rest) || containsSub pat rest

/-- Python `pat in s` on strings. -/
def strContains (s pat : String) : Bool := containsSub pat.data s.data

/-- Decimal digit character test. -/
def isDigitChar (c : Char) : Bool := decide ('0' ≤ c) && decide (c ≤ '9')

/-- Greedy run of decimal digits: `(digits, rest)`. -/
def takeDigits (cs : List Char) : List Char × List Char :=
  (cs.takeWhile isDigitChar, cs.dropWhile isDigitChar)

/-- Numeric value of a digit character. -/
def digitVal (c : Char) : Nat := c.toNat - 48

/-- Value of a decimal digit string (Python `int(...)` on a digit run). -/
def natOfDigits (ds : List Char) : Nat := ds.foldl (fun a c => a * 10 + digitVal c) 0

/-- Decimal digit as a character. -/
def digitChar (d : Nat) : Char :=
  if d = 0 then '0' else if d = 1 then '1' else if d = 2 then '2'
  else if d = 3 then '3' else if d = 4 then '4' else if d = 5 then '5'
  else if d = 6 then '6' else if d = 7 then '7' else if d = 8 then '8' else '9'

/-- Decimal digits of a natural number (fuel-indexed so it evaluates by `decide`). -/
def natDigits : Nat → Nat → List Char
  | 0, _ => []
  | f + 1, n => if n < 10 then [digitChar n] else natDigits f (n / 10) ++ [digitChar (n % 10)]

/-- Decimal rendering of a natural number (Python `str(n)` / f-string interpolation). -/
def natToStr (n : Nat) : String := ⟨natDigits (n + 1) n⟩

/-- Consume one-or-more whitespace characters (regex `\s+`); `none` if the
input does not start with whitespace. -/
def dropSpaces1 : List Char → Option (List Char)
  | [] => none
  | c :: rest => if pySpace c then some (rest.dropWhile pySpace) else none

/-! ## Text sanitizer (`clean_xml_string`) -/

/-- Character class of the source regex `[\x00-\x08\x0b\x0c\x0e-\x1f￾￿]`. -/
def illegalXmlChar (c : Char) : Bool :=
  decide (c.toNat ≤ 0x08 ∨ (0x0b ≤ c.toNat ∧ c.toNat ≤ 0x0c) ∨
    (0x0e ≤ c.toNat ∧ c.toNat ≤ 0x1f) ∨ (0xfffe ≤ c.toNat ∧ c.toNat ≤ 0xffff))

/-- `clean_xml_string`: removes characters that are invalid in XML
(the regex substitution with the empty string is a character filter). -/
def clean_xml_string (s : String) : String :=
  ⟨s.data.filter (fun c => !illegalXmlChar c)⟩

/-! ## Diff Summarizer (`summarize_diff`) -/

/-- Line starting with `-` but not `---` (expected-only content line). -/
def isMinusContent (l : String) : Bool := strStartsWith l "-" && !strStartsWith l "---"

/-- Line starting with `+` but not `+++` (actual-only content line). -/
def isPlusContent (l : String) : Bool := strStartsWith l "+" && !strStartsWith l "+++"

/-- Scanning loop of `summarize_diff`: collects `ERROR:` lines and
consecutive `-`/`+` block pairs.  Fuel-indexed (fuel = number of lines)
so that it is structurally recursive and evaluates by `decide`; each
iteration consumes at least one line, so the fuel never runs out. -/
def sdLoop : Nat → List String → List String → List (String × String) →
    List String × List (String × String)
  | 0, _, errs, mms => (errs, mms)
  | _ + 1, [], errs, mms => (errs, mms)
  | fuel + 1, l :: rest, errs, mms =>
    let errs2 := if strContains l "ERROR:" then errs ++ [pyStrip l] else errs
    if isMinusContent l then
      let expB := (l :: rest).takeWhile isMinusContent
      let rest1 := (l :: rest).dropWhile isMinusContent
      let actB := rest1.takeWhile isPlusContent
      let rest2 := rest1.dropWhile isPlusContent
      let expected := pyStrip (joinNL (expB.map strTail))
      let actual := pyStrip (joinNL (actB.map strTail))
      let mms2 :=
        if strStartsWith expected "--" && strStartsWith actual "--" then mms
        else if expected ≠ actual then mms ++ [(expected, actual)] else mms
      sdLoop fuel rest2 errs2 mms2
    else
      sdLoop fuel rest errs2 mms

/-- First-occurrence deduplication (Python `list(dict.fromkeys(...))`). -/
def firstDedup (seen : List String) : List String → List String
  | [] => []
  | x :: xs => if x ∈ seen then firstDedup seen xs else x :: firstDedup (seen ++ [x]) xs

/-- Python `s[:200] + '...' if len(s) > 200 else s`. -/
def trunc200 (s : String) : String :=
  if 200 < s.data.length then (⟨s.data.take 200⟩ : String) ++ "..." else s

/-- Rendered lines for one mismatch pair. -/
def sdMismatchLines : List (String × String) → List String
  | [] => []
  | (e, a) :: rest =>
    ("  - EXPECTED: " ++ trunc200 e) :: ("  + ACTUAL:   " ++ trunc200 a) ::
      ("  " ++ "--------------------") :: sdMismatchLines rest

/-- The summary line list assembled by `summarize_diff` from the collected
errors and mismatches. -/
def sdSummaryLines (diff : String) (errors : List String) (mms : List (String × String)) :
    List String :=
  (if errors.isEmpty then []
   else "[RUNTIME ERRORS]" ::
     (((firstDedup [] errors).take 5).map (fun e => "  ! " ++ e) ++ [""]))
  ++ (if mms.isEmpty then []
      else "[VALUE MISMATCHES]" ::
        (sdMismatchLines (mms.take 10)
          ++ (if 10 < mms.length
              then ["  ... and " ++ natToStr (mms.length - 10) ++ " more mismatches."]
              else [])
          ++ [""]))
  ++ (if errors.isEmpty && mms.isEmpty then
        [(if strContains diff "QUERY PLAN" then "[PLAN CHANGE] Query execution plan has changed."
          else "[GENERAL FAILURE] Output does not match expected result."), ""]
      else [])

/-- `summarize_diff`: analyzes diff content and returns
`(summary_string, list_of_mismatches)`. -/
def summarize_diff (diff : String) : String × List (String × String) :=
  if diff = "" then ("", [])
  else
    let ls := pySplitLines diff
    let em := sdLoop ls.length ls [] []
    (joinNL (sdSummaryLines diff em.1 em.2), em.2)

/-! ## Run-Log Parser (`parse_regression_out`) -/

/-- One parsed run-log row (`name`, `classname`, `time`, `status`); the
millisecond duration is stored as the exact rational `ms / 1000`. -/
structure TestCaseResult where
  name : String
  classname : String
  time : ℚ
  status : String
deriving DecidableEq

/-- Characters up to (excluding) the first occurrence of `t`; `none` if `t`
does not occur. -/
def upToChar (t : Char) : List Char → Option (List Char)
  | [] => none
  | c :: rest => if c = t then some [] else (upToChar t rest).map (fun l => c :: l)

/-- Python `cs.split(":")[0]` modelled on characters: everything before the
first colon, or the whole list when there is none. -/
def upToColonOrAll (cs : List Char) : List Char :=
  match upToChar ':' cs with
  | some pre => pre
  | none => cs

/-- Attempt of the regex `# (parallel group \(.*?\))` at one start position:
requires the literal `# parallel group (` followed by a closing `)`. -/
def parGroupAt (cs : List Char) : Option (List Char) :=
  if ("# parallel group (").data.isPrefixOf cs then
    match upToChar ')' (cs.drop 18) with
    | some mid => some (("parallel group (").data ++ mid ++ [')'])
    | none => none
  else none

/-- `re.search` of `# (parallel group \(.*?\))`: first position where the
sub-pattern matches. -/
def findParGroup : List Char → Option (List Char)
  | [] => none
  | c :: rest =>
    match parGroupAt (c :: rest) with
    | some g => some g
    | none => findParGroup rest

/-- Group label extracted from a `# parallel group` line: the regex capture
when it matches, otherwise `line[1:].split(":")[0].strip()`. -/
def groupOf (line : String) : String :=
  match findParGroup line.data with
  | some g => ⟨g⟩
  | none => pyStrip ⟨upToColonOrAll (line.data.drop 1)⟩

/-- Tail of the run-log row regex after the `(ok|not ok)` alternative:
`\s+(\d+)\s+([-+])\s+(\S+)\s+(\d+)\s+ms`; returns `(name, duration ms)`. -/
def matchOkTail (cs : List Char) : Option (String × Nat) :=
  match dropSpaces1 cs with
  | none => none
  | some r1 =>
    let seq := takeDigits r1
    if seq.1.isEmpty then none else
    match dropSpaces1 seq.2 with
    | none => none
    | some r3 =>
      match r3 with
      | [] => none
      | sc :: r4 =>
        if sc = '-' || sc = '+' then
          match dropSpaces1 r4 with
          | none => none
          | some r5 =>
            let name := r5.takeWhile (fun c => !pySpace c)
            let r6 := r5.dropWhile (fun c => !pySpace c)
            if name.isEmpty then none else
            match dropSpaces1 r6 with
            | none => none
            | some r7 =>
              let dur := takeDigits r7
              if dur.1.isEmpty then none else
              match dropSpaces1 dur.2 with
              | none => none
              | some r9 =>
                if ("ms").data.isPrefixOf r9 then some (⟨name⟩, natOfDigits dur.1) else none
        else none

/-- `re.match` of `^(ok|not ok)\s+(\d+)\s+([-+])\s+(\S+)\s+(\d+)\s+ms`:
returns `(status, name, duration ms)`. -/
def matchOkLine (line : String) : Option (String × String × Nat) :=
  match (if ("ok").data.isPrefixOf line.data then matchOkTail (line.data.drop 2) else none) with
  | some r => some ("ok", r.1, r.2)
  | none =>
    match (if ("not ok").data.isPrefixOf line.data then matchOkTail (line.data.drop 6) else none) with
    | some r => some ("not ok", r.1, r.2)
    | none => none

/-- One iteration of the `parse_regression_out` loop: state is
`(current_group, test_cases)`. -/
def prLineStep (st : String × List TestCaseResult) (rawLine : String) :
    String × List TestCaseResult :=
  let line := pyStrip rawLine
  if line = "" then st
  else if strStartsWith line "# parallel group" then (groupOf line, st.2)
  else
    match matchOkLine line with
    | some r => (st.1, st.2 ++ [⟨r.2.1, st.1, (r.2.2 : ℚ) / 1000, r.1⟩])
    | none => st

/-- `parse_regression_out`: parses the run log into an ordered
`TestCaseResult` list. -/
def parse_regression_out (content : String) : List TestCaseResult :=
  ((pySplitLines content).foldl prLineStep ("Default Group", [])).2

/-! ## Statement Segmenter (`get_out_file_steps`) -/

/-- One detected statement step: `sql` text plus a 1-indexed inclusive line
range (`start`/`stop` model the source's `'start'`/`'end'` keys). -/
structure Step where
  sql : String
  start : Nat
  stop : Nat
deriving DecidableEq

/-- The fixed boundary keyword set of the segmenter. -/
def sql_keywords : List String :=
  ["SELECT", "INSERT", "UPDATE", "DELETE", "CREATE", "DROP",
   "ALTER", "CALL", "DO", "\\", "BEGIN", "COMMIT", "ROLLBACK", "-- "]

/-- Boundary heuristic: the line starts with a keyword (and not with a
space, which is implied but kept faithful to the source). -/
def isNewCmd (line : String) : Bool :=
  sql_keywords.any (fun kw => strStartsWith line kw) && !strStartsWith line " "

/-- Scanning loop of `get_out_file_steps`. `n` is the total number of lines,
`i` the 0-based index of the next line, `cur` the accumulated lines of the
current step, `st` its 1-based start line, `acc` the finished steps. -/
def gofsGo (n : Nat) : List String → Nat → List String → Nat → List Step → List Step
  | [], _, cur, st, acc =>
    if cur.isEmpty then acc else acc ++ [⟨pyStrip (joinNL cur), st, n⟩]
  | line :: rest, i, cur, st, acc =>
    if isNewCmd line then
      gofsGo n rest (i + 1) [pyRStrip line] (i + 1)
        (if cur.isEmpty then acc else acc ++ [⟨pyStrip (joinNL cur), st, i⟩])
    else if cur.isEmpty then
      gofsGo n rest (i + 1) cur st acc
    else
      gofsGo n rest (i + 1) (cur ++ [pyRStrip line]) st acc

/-- `get_out_file_steps`: ordered step list of an output file
(`none` = file absent → empty list). -/
def get_out_file_steps (content : Option String) : List Step :=
  match content with
  | none => []
  | some c => gofsGo (pySplitLines c).length (pySplitLines c) 0 [] 1 []

/-! ## Hunk Parser -/

/-- One unified-diff hunk: start lines from the `@@` header plus the raw
lines following it. -/
structure Hunk where
  exp_start : Nat
  act_start : Nat
  lines : List String
deriving DecidableEq

/-- Parser for the hunk header regex `^@@ -(\d+),?(\d*) \+(\d+),?(\d*) @@`;
returns `(exp_start, act_start)`. -/
def parseHunkHeader (line : String) : Option (Nat × Nat) :=
  match line.data with
  | '@' :: '@' :: ' ' :: '-' :: r1 =>
    let d1 := takeDigits r1
    if d1.1.isEmpty then none else
    let r3 := match d1.2 with
      | ',' :: rr => (takeDigits rr).2
      | other => other
    match r3 with
    | ' ' :: '+' :: r4 =>
      let d2 := takeDigits r4
      if d2.1.isEmpty then none else
      let r6 := match d2.2 with
        | ',' :: rr => (takeDigits rr).2
        | other => other
      match r6 with
      | ' ' :: '@' :: '@' :: _ => some (natOfDigits d1.1, natOfDigits d2.1)
      | _ => none
    | _ => none
  | _ => none

/-- One iteration of the hunk-accumulation loop: state is
`(current_hunk, finished_hunks)`. -/
def phStep (st : Option Hunk × List Hunk) (line : String) : Option Hunk × List Hunk :=
  match parseHunkHeader line with
  | some h =>
    match st.1 with
    | some cur => (some ⟨h.1, h.2, []⟩, st.2 ++ [cur])
    | none => (some ⟨h.1, h.2, []⟩, st.2)
  | none =>
    match st.1 with
    | some cur => (some ⟨cur.exp_start, cur.act_start, cur.lines ++ [line]⟩, st.2)
    | none => st

/-- Hunk list parsed from a diff blob (lines before the first header are
ignored; the trailing hunk is flushed). -/
def parseHunks (diff : String) : List Hunk :=
  let st := (pySplitLines diff).foldl phStep (none, [])
  match st.1 with
  | some cur => st.2 ++ [cur]
  | none => st.2

/-! ## Alignment Engine -/

/-- One mismatch record attached to a failing test. -/
structure MismatchEntry where
  sql : String
  expected : String
  actual : String
deriving DecidableEq

/-- Containment of a line number in a step's inclusive range
(`step['start'] <= act_start <= step['end']`). -/
def stepContains (n : Nat) (s : Step) : Bool :=
  decide (s.start ≤ n) && decide (n ≤ s.stop)

/-- Python `s or placeholder` on strings (empty string is falsy). -/
def orPlaceholder (s p : String) : String := if s = "" then p else s

/-- Stripped concatenation of a hunk's `-` content lines (leading `-`
removed), as built by the pg-regress converter. -/
def hunkExpText (h : Hunk) : String :=
  pyStrip (joinNL ((h.lines.filter isMinusContent).map strTail))

/-- Stripped concatenation of a hunk's `+` content lines (leading `+`
removed), as built by the pg-regress converter. -/
def hunkActText (h : Hunk) : String :=
  pyStrip (joinNL ((h.lines.filter (fun l => !isMinusContent l && isPlusContent l)).map strTail))

/-- The pg-regress converter's entry for one hunk: first step containing
`act_start` wins; otherwise the synthetic `(hunk at actual line N)` label;
empty texts are replaced by placeholders. -/
def buildMismatchEntry (actualSteps : List Step) (h : Hunk) : MismatchEntry :=
  { sql :=
      match actualSteps.find? (stepContains h.act_start) with
      | some s => s.sql
      | none => "(hunk at actual line " ++ natToStr h.act_start ++ ")"
    expected := orPlaceholder (hunkExpText h) "(no expected output for this hunk)"
    actual := orPlaceholder (hunkActText h) "(no actual output for this hunk)" }

/-- Alignment Engine of `cli/pg-regress/convert_to_junit.py`: one
`MismatchEntry` per parsed hunk. -/
def mismatching_steps (diff : String) (actContent : Option String) : List MismatchEntry :=
  (parseHunks diff).map (buildMismatchEntry (get_out_file_steps actContent))

/-- Expected text of one hunk in the cli variant (no `---` exclusion:
`if line.startswith('-')`). -/
def cliHunkExpText (h : Hunk) : String :=
  pyStrip (joinNL ((h.lines.filter (fun l => strStartsWith l "-")).map strTail))

/-- Actual text of one hunk in the cli variant (`elif line.startswith('+')`). -/
def cliHunkActText (h : Hunk) : String :=
  pyStrip (joinNL ((h.lines.filter
    (fun l => !strStartsWith l "-" && strStartsWith l "+")).map strTail))

/-- The cli converter's entry for one hunk: `none` (hunk discarded) when no
step contains `act_start`.  The source also looks up a matching expected
step by SQL text, but never uses the result, so that lookup is omitted. -/
def cliBuildEntry (actualSteps : List Step) (h : Hunk) : Option MismatchEntry :=
  match actualSteps.find? (stepContains h.act_start) with
  | none => none
  | some target =>
    some { sql := target.sql
           expected := orPlaceholder (cliHunkExpText h) "(no expected output for this hunk)"
           actual := orPlaceholder (cliHunkActText h) "(no actual output for this hunk)" }

/-- Alignment Engine of `cli/convert_to_junit.py` (the older variant). -/
def cli_mismatching_steps (diff : String) (actContent : Option String) : List MismatchEntry :=
  (parseHunks diff).filterMap (cliBuildEntry (get_out_file_steps actContent))

/-! ## Report Builder (failure nodes and root counts) -/

/-- One structured `<step>` record of a failure node. -/
structure FailStep where
  index : Nat
  sql : String
  expected : String
  actual : String
deriving DecidableEq

/-- The structured step records of one failing test in the pg-regress
converter: the indexed mismatching steps when any exist, otherwise the
single full-file fallback step labeled `(full output)`. -/
def failureSteps (diff : String) (expContent actContent : Option String) : List FailStep :=
  let ms := mismatching_steps diff actContent
  if ms.isEmpty then
    [⟨1, "(full output)", pyStrip (expContent.getD ""), pyStrip (actContent.getD "")⟩]
  else
    ms.enum.map (fun p => ⟨p.1 + 1, p.2.sql, p.2.expected, p.2.actual⟩)

/-- One per-test node of the report. -/
structure TestNode where
  name : String
  classname : String
  time : ℚ
  status : String
  failSteps : List FailStep
deriving DecidableEq

/-- The report root: aggregate counts plus the per-test nodes. -/
structure Report where
  tests : Nat
  failures : Nat
  errors : Nat
  skipped : Nat
  nodes : List TestNode
deriving DecidableEq

/-- `create_junit_xml` (report structure): root counts computed from the
`TestCaseResult` list; each failing test gets its `failureSteps`.  `diffs`
is the diff-blob mapping, `actualF` the results directory, `expectedF` and
`fallbackF` the expected directory and its fallback (a `none` value means
the file does not exist). -/
def create_junit_xml (tcs : List TestCaseResult) (diffs : String → Option String)
    (actualF expectedF fallbackF : String → Option String) : Report :=
  { tests := tcs.length
    failures := (tcs.filter (fun t => t.status == "not ok")).length
    errors := 0
    skipped := 0
    nodes := tcs.map (fun tc =>
      let expC :=
        match expectedF tc.name with
        | some c => some c
        | none => fallbackF tc.name
      if tc.status == "not ok" then
        ⟨tc.name, tc.classname, tc.time, tc.status,
          failureSteps ((diffs tc.name).getD "") expC (actualF tc.name)⟩
      else
        ⟨tc.name, tc.classname, tc.time, tc.status, []⟩) }

/-! ## Helper lemmas -/

theorem strData_append (a b : String) : (a ++ b).data = a.data ++ b.data := rfl

theorem isPrefixOf_append_self (l r : List Char) : l.isPrefixOf (l ++ r) = true := by
  induction l with
  | nil => simp [List.isPrefixOf]
  | cons a as ih => simp [List.isPrefixOf, ih]

theorem joinNL_cons_ne_empty (h : String) (t : List String) (hh : h.data ≠ []) :
    joinNL (h :: t) ≠ "" := by
  cases t with
  | nil =>
    intro e
    exact hh (congrArg String.data e)
  | cons x xs =>
    intro e
    have hd : ((h ++ "\n") ++ joinNL (x :: xs)).data = [] := congrArg String.data e
    rw [strData_append, strData_append] at hd
    simp at hd

theorem strStartsWith_joinNL_head (h : String) (t : List String) :
    strStartsWith (joinNL (h :: t)) h = true := by
  cases t with
  | nil =>
    show h.data.isPrefixOf h.data = true
    have := isPrefixOf_append_self h.data []
    rwa [List.append_nil] at this
  | cons x xs =>
    show h.data.isPrefixOf ((h ++ "\n" ++ joinNL (x :: xs)).data) = true
    rw [strData_append, strData_append, List.append_assoc]
    exact isPrefixOf_append_self _ _

theorem sdSummaryLines_ne_empty (diff : String) (errors : List String)
    (mms : List (String × String)) :
    joinNL (sdSummaryLines diff errors mms) ≠ "" := by
  cases errors with
  | cons e es =>
    simp only [sdSummaryLines, List.isEmpty_cons, Bool.false_eq_true, if_false,
      Bool.false_and, List.cons_append, List.append_nil]
    exact joinNL_cons_ne_empty _ _ (by decide)
  | nil =>
    cases mms with
    | cons m ms =>
      simp only [sdSummaryLines, List.isEmpty_nil, List.isEmpty_cons, if_true,
        Bool.false_eq_true, if_false, Bool.true_and, List.nil_append, List.cons_append]
      exact joinNL_cons_ne_empty _ _ (by decide)
    | nil =>
      by_cases hq : strContains diff "QUERY PLAN" = true <;>
        simp only [sdSummaryLines, List.isEmpty_nil, if_true, Bool.true_and,
          List.nil_append, hq, if_false] <;>
        exact joinNL_cons_ne_empty _ _ (by decide)

/-! ## Claim theorems -/

/-- C9 (amended): for every *non-empty* diff text the Diff Summarizer
returns a non-empty narrative; with no collected errors and no collected
mismatches the narrative is the plan-changed note when the query-plan
marker occurs in the diff, else the generic output-does-not-match note;
an error section starts with the runtime-errors heading and a mismatch
section (with no errors) starts with the value-mismatches heading.
(For empty diff text the summarizer returns the empty string, see the
counterexample.) -/
theorem claim_C9_summarizer_nonempty (diff : String) (hne : diff ≠ "") :
    (summarize_diff diff).1 ≠ "" ∧
    sdSummaryLines diff [] [] =
      [(if strContains diff "QUERY PLAN" = true
        then "[PLAN CHANGE] Query execution plan has changed."
        else "[GENERAL FAILURE] Output does not match expected result."), ""] ∧
    (∀ (errors : List String) (mms : List (String × String)), errors ≠ [] →
       strStartsWith (joinNL (sdSummaryLines diff errors mms)) "[RUNTIME ERRORS]" = true) ∧
    (∀ mms : List (String × String), mms ≠ [] →
       strStartsWith (joinNL (sdSummaryLines diff [] mms)) "[VALUE MISMATCHES]" = true) := by
  refine ⟨?_, ?_, ?_, ?_⟩
  · simp only [summarize_diff, if_neg hne]
    exact sdSummaryLines_ne_empty diff _ _
  · simp [sdSummaryLines]
  · intro errors mms herr
    obtain ⟨e, es, rfl⟩ := List.exists_cons_of_ne_nil herr
    have hshape : sdSummaryLines diff (e :: es) mms =
        "[RUNTIME ERRORS]" ::
          ((((firstDedup [] (e :: es)).take 5).map (fun x => "  ! " ++ x) ++ [""]) ++
            ((if mms.isEmpty then []
              else "[VALUE MISMATCHES]" ::
                (sdMismatchLines (mms.take 10)
                  ++ (if 10 < mms.length
                      then ["  ... and " ++ natToStr (mms.length - 10) ++ " more mismatches."]
                      else [])
                  ++ [""])) ++ [])) := by
      simp [sdSummaryLines]
    rw [hshape]
    exact strStartsWith_joinNL_head _ _
  · intro mms hm
    obtain ⟨m, ms, rfl⟩ := List.exists_cons_of_ne_nil hm
    have hshape : sdSummaryLines diff [] (m :: ms) =
        "[VALUE MISMATCHES]" ::
          ((sdMismatchLines ((m :: ms).take 10)
            ++ (if 10 < (m :: ms).length
                then ["  ... and " ++ natToStr ((m :: ms).length - 10) ++ " more mismatches."]
                else [])
            ++ [""]) ++ []) := by
      simp [sdSummaryLines]
    rw [hshape]
    exact strStartsWith_joinNL_head _ _

/-- C9 counterexample: for a failing test with an empty diff blob the
Diff Summarizer returns the *empty* narrative (and no mismatches), so the
narrative is not "never empty for a failing test" as claimed. -/
theorem claim_C9_counterexample : summarize_diff "" = ("", []) := by decide

/-- C9 witness: a concrete non-empty diff gets a non-empty narrative. -/
theorem claim_C9_witness : ("-a" ≠ "") ∧ (summarize_diff "-a").1 ≠ "" :=
  ⟨by decide, (claim_C9_summarizer_nonempty "-a" (by decide)).1⟩

/-- C8: the sanitizer is exactly the character filter for the ranges
`\x00`–`\x08`, `\x0b`–`\x0c`, `\x0e`–`\x1f`, `￾`–`￿`; every other
character (including tab, newline and carriage return) is kept in order
(the output is a sublist of the input), and on the concrete input with a
NUL byte and a `\x0e` byte the output contains neither. -/
theorem claim_C8_sanitizer :
    (∀ s : String,
      (clean_xml_string s).data = s.data.filter (fun c => !illegalXmlChar c) ∧
      (clean_xml_string s).data.Sublist s.data ∧
      (∀ c : Char, c ∈ (clean_xml_string s).data ↔ c ∈ s.data ∧
        ¬(c.toNat ≤ 0x08 ∨ (0x0b ≤ c.toNat ∧ c.toNat ≤ 0x0c) ∨
          (0x0e ≤ c.toNat ∧ c.toNat ≤ 0x1f) ∨ (0xfffe ≤ c.toNat ∧ c.toNat ≤ 0xffff)))) ∧
    illegalXmlChar '\t' = false ∧ illegalXmlChar '\n' = false ∧ illegalXmlChar '\r' = false ∧
    clean_xml_string "a\x00b\x0ec" = "abc" := by
  refine ⟨fun s => ⟨rfl, ?_, ?_⟩, by decide, by decide, by decide, by decide⟩
  · exact List.filter_sublist _
  · intro c
    simp only [clean_xml_string, List.mem_filter, illegalXmlChar, Bool.not_eq_true',
      decide_eq_false_iff_not]

/-- C4: the report root's `tests` count is the number of parsed
TestCaseResults and its `failures` count is the number of results with
status `not ok`, for every diff mapping and every state of the results and
expected files (diff availability and file-read degradation do not enter
the computation). -/
theorem claim_C4_root_counts (tcs : List TestCaseResult)
    (diffs actualF expectedF fallbackF : String → Option String) :
    (create_junit_xml tcs diffs actualF expectedF fallbackF).tests = tcs.length ∧
    (create_junit_xml tcs diffs actualF expectedF fallbackF).failures =
      tcs.countP (fun t => t.status == "not ok") := by
  constructor
  · rfl
  · simp [create_junit_xml, List.countP_eq_length_filter]

/-- C2 (code bug in the cli variant): for a hunk whose `act_start` is
contained in no step (here: the actual results file is missing, so the
Statement Segmenter returns zero steps), the pg-regress Alignment Engine
still emits exactly one MismatchEntry with the synthetic
`(hunk at actual line N)` label, as the claim states — but the older
`cli/convert_to_junit.py` Alignment Engine silently discards the hunk,
producing zero MismatchEntries for one parsed hunk. -/
theorem claim_C2_cli_drops_unmatched_hunk :
    (parseHunks "@@ -1,1 +1,1 @@\n-a\n+b").length = 1 ∧
    get_out_file_steps none = [] ∧
    mismatching_steps "@@ -1,1 +1,1 @@\n-a\n+b" none =
      [⟨"(hunk at actual line 1)", "a", "b"⟩] ∧
    cli_mismatching_steps "@@ -1,1 +1,1 @@\n-a\n+b" none = [] := by decide

/-- C6 (code bug in the cli variant): a `---` line occurring *after* the
`@@` header (here a deleted SQL comment `-- x`, which unified diff renders
as `--- x`) is excluded from the expected text by the pg-regress converter,
as the claim states — but `cli/convert_to_junit.py` includes it, so its
MismatchEntry's expectedText contains the `-- x` content. -/
theorem claim_C6_cli_includes_header_like_lines :
    mismatching_steps "@@ -1,2 +1,1 @@\n-keep\n--- x\n+b" (some "SELECT 1;\n") =
      [⟨"SELECT 1;", "keep", "b"⟩] ∧
    cli_mismatching_steps "@@ -1,2 +1,1 @@\n-keep\n--- x\n+b" (some "SELECT 1;\n") =
      [⟨"SELECT 1;", "keep\n-- x", "b"⟩] ∧
    strContains "keep\n-- x" "-- x" = true ∧
    strContains "keep" "-- x" = false := by decide

/-- C10: a MismatchEntry's expected and actual texts are never empty: when
the stripped `-`-line (resp. `+`-line) content of the hunk is empty the
placeholder `(no expected output for this hunk)` (resp.
`(no actual output for this hunk)`) is used, otherwise the stripped content
itself; consequently every entry emitted by the Alignment Engine has
non-empty expected and actual texts. -/
theorem claim_C10_placeholders :
    (∀ (steps : List Step) (hk : Hunk),
      (buildMismatchEntry steps hk).expected ≠ "" ∧
      (buildMismatchEntry steps hk).actual ≠ "" ∧
      (hunkExpText hk = "" →
        (buildMismatchEntry steps hk).expected = "(no expected output for this hunk)") ∧
      (hunkExpText hk ≠ "" → (buildMismatchEntry steps hk).expected = hunkExpText hk) ∧
      (hunkActText hk = "" →
        (buildMismatchEntry steps hk).actual = "(no actual output for this hunk)") ∧
      (hunkActText hk ≠ "" → (buildMismatchEntry steps hk).actual = hunkActText hk)) ∧
    (∀ (diff : String) (actC : Option String), ∀ e ∈ mismatching_steps diff actC,
      e.expected ≠ "" ∧ e.actual ≠ "") := by
  have hmain : ∀ (steps : List Step) (hk : Hunk),
      (buildMismatchEntry steps hk).expected ≠ "" ∧
      (buildMismatchEntry steps hk).actual ≠ "" ∧
      (hunkExpText hk = "" →
        (buildMismatchEntry steps hk).expected = "(no expected output for this hunk)") ∧
      (hunkExpText hk ≠ "" → (buildMismatchEntry steps hk).expected = hunkExpText hk) ∧
      (hunkActText hk = "" →
        (buildMismatchEntry steps hk).actual = "(no actual output for this hunk)") ∧
      (hunkActText hk ≠ "" → (buildMismatchEntry steps hk).actual = hunkActText hk) := by
    intro steps hk
    by_cases he : hunkExpText hk = "" <;> by_cases ha : hunkActText hk = "" <;>
      simp [buildMismatchEntry, orPlaceholder, he, ha]
  refine ⟨hmain, ?_⟩
  intro diff actC e he
  obtain ⟨hk, _, rfl⟩ := List.mem_map.mp he
  exact ⟨(hmain _ hk).1, (hmain _ hk).2.1⟩

/-- C10 witness: a hunk with only a `+` line gets the expected-side
placeholder. -/
theorem claim_C10_witness :
    hunkExpText ⟨1, 1, ["+x"]⟩ = "" ∧
    (buildMismatchEntry [] ⟨1, 1, ["+x"]⟩).expected = "(no expected output for this hunk)" :=
  ⟨by decide, (claim_C10_placeholders.1 [] ⟨1, 1, ["+x"]⟩).2.2.1 (by decide)⟩

/-- C3 (amended): for a failing test whose diff blob yields *no parsed
hunks*, the pg-regress failure node contains exactly one synthetic
full-file fallback step labeled `(full output)` whose expected/actual texts
are the stripped whole-file contents (empty when the file is absent).
When hunks exist but the Statement Segmenter finds zero steps, the
converter instead emits per-hunk `(hunk at actual line N)` entries — see
the counterexample. -/
theorem claim_C3_fullfile_fallback (diff : String) (expC actC : Option String)
    (h : parseHunks diff = []) :
    failureSteps diff expC actC =
      [⟨1, "(full output)", pyStrip (expC.getD ""), pyStrip (actC.getD "")⟩] := by
  simp [failureSteps, mismatching_steps, h]

/-- C3 counterexample: a failing test with one parsed hunk and an actual
file with zero detected steps does *not* get the `(full output)` fallback
step (contrary to the claim's second trigger condition); it gets a
`(hunk at actual line N)`-labeled entry instead. -/
theorem claim_C3_counterexample :
    get_out_file_steps (some "x\n") = [] ∧
    (parseHunks "@@ -5,1 +5,1 @@\n-a\n+b").length = 1 ∧
    failureSteps "@@ -5,1 +5,1 @@\n-a\n+b" none (some "x\n") =
      [⟨1, "(hunk at actual line 5)", "a", "b"⟩] ∧
    "(hunk at actual line 5)" ≠ "(full output)" := by decide

/-- C3 witness: empty diff text, expected file present, actual file absent. -/
theorem claim_C3_witness :
    failureSteps "" (some " hello ") none = [⟨1, "(full output)", "hello", ""⟩] := by
  have h := claim_C3_fullfile_fallback "" (some " hello ") none (by decide)
  rw [h]; decide

/-- C7 (amended): the Run-Log Parser is a fold of `prLineStep` over the
lines; a stripped line matching the ok-row pattern appends exactly one
TestCaseResult carrying the current group and duration `ms / 1000`; a
stripped line beginning with `# parallel group` (not an arbitrary leading
`#`, see the counterexample) updates the group to the regex capture
`parallel group (...)` when present, otherwise to the remainder after `#`
up to a colon, stripped; every other line leaves the state unchanged. -/
theorem claim_C7_runlog_fold :
    (∀ content : String,
      parse_regression_out content =
        ((pySplitLines content).foldl prLineStep ("Default Group", [])).2) ∧
    (∀ (g : String) (acc : List TestCaseResult) (line status name : String) (ms : Nat),
      pyStrip line ≠ "" →
      strStartsWith (pyStrip line) "# parallel group" = false →
      matchOkLine (pyStrip line) = some (status, name, ms) →
      prLineStep (g, acc) line = (g, acc ++ [⟨name, g, (ms : ℚ) / 1000, status⟩])) ∧
    (∀ (g : String) (acc : List TestCaseResult) (line : String),
      pyStrip line ≠ "" →
      strStartsWith (pyStrip line) "# parallel group" = true →
      prLineStep (g, acc) line = (groupOf (pyStrip line), acc)) ∧
    (∀ (g : String) (acc : List TestCaseResult) (line : String),
      strStartsWith (pyStrip line) "# parallel group" = false →
      matchOkLine (pyStrip line) = none →
      prLineStep (g, acc) line = (g, acc)) ∧
    (∀ line : String, findParGroup line.data = none →
      groupOf line = pyStrip ⟨upToColonOrAll (line.data.drop 1)⟩) ∧
    (∀ (line : String) (g : List Char), findParGroup line.data = some g →
      groupOf line = ⟨g⟩) := by
  refine ⟨fun _ => rfl, ?_, ?_, ?_, ?_, ?_⟩
  · intro g acc line status name ms hne hng hok
    simp [prLineStep, hne, hng, hok]
  · intro g acc line hne hg
    simp [prLineStep, hne, hg]
  · intro g acc line hng hnone
    by_cases hne : pyStrip line = ""
    · simp [prLineStep, hne]
    · simp [prLineStep, hne, hng, hnone]
  · intro line h
    simp [groupOf, h]
  · intro line g h
    simp [groupOf, h]

/-- C7 counterexample: a noise line with a leading `#` that does not start
with `# parallel group` does *not* update the current group (the claim says
any leading-`#` line updates it): the following test row still carries the
default group, not `mygroup`. -/
theorem claim_C7_counterexample :
    (parse_regression_out "# mygroup: noise\nok 1 + t 10 ms").map (fun t => t.classname) =
      ["Default Group"] ∧
    pyStrip ⟨upToColonOrAll (("# mygroup: noise").data.drop 1)⟩ = "mygroup" ∧
    "Default Group" ≠ "mygroup" := by decide

/-- C7 witness: one ok row appends one result with the current group and
duration 10 ms / 1000. -/
theorem claim_C7_witness :
    prLineStep ("Default Group", []) "ok 1 + alpha 10 ms" =
      ("Default Group", [⟨"alpha", "Default Group", ((10 : Nat) : ℚ) / 1000, "ok"⟩]) := by
  have h := claim_C7_runlog_fold.2.1 "Default Group" [] "ok 1 + alpha 10 ms" "ok" "alpha" 10
    (by decide) (by decide) (by decide)
  simpa using h

theorem chain'_append_singleton (acc : List Step) (x : Step)
    (hacc : ∀ s ∈ acc, s.stop < x.start)
    (hch : List.Chain' (fun a b => a.stop < b.start) acc) :
    List.Chain' (fun a b => a.stop < b.start) (acc ++ [x]) := by
  rw [List.chain'_append]
  refine ⟨hch, List.chain'_singleton _, ?_⟩
  intro a ha b hb
  have haa : a ∈ acc := List.mem_of_mem_getLast? ha
  have hbx : x = b := by simpa using hb
  rw [← hbx]
  exact hacc a haa

theorem gofsGo_invariant (n : Nat) (ls : List String) :
    ∀ (i : Nat) (cur : List String) (st : Nat) (acc : List Step),
    i + ls.length = n →
    (cur.isEmpty = true → acc = []) →
    (cur.isEmpty = false → st ≤ i) →
    1 ≤ st →
    (∀ s ∈ acc, 1 ≤ s.start ∧ s.start ≤ s.stop ∧ s.stop < st) →
    List.Chain' (fun a b => a.stop < b.start) acc →
    (∀ s ∈ gofsGo n ls i cur st acc, 1 ≤ s.start ∧ s.start ≤ s.stop) ∧
    List.Chain' (fun a b => a.stop < b.start) (gofsGo n ls i cur st acc) := by
  induction ls with
  | nil =>
    intro i cur st acc hn hemp hne hst1 hacc hch
    simp only [gofsGo]
    by_cases hc : cur.isEmpty = true
    · rw [if_pos hc]
      exact ⟨fun s hs => ⟨(hacc s hs).1, (hacc s hs).2.1⟩, hch⟩
    · rw [if_neg hc]
      have hc' : cur.isEmpty = false := by simpa using hc
      have hstn : st ≤ n := by
        have h1 := hne hc'
        simp at hn
        omega
      constructor
      · intro s hs
        rcases List.mem_append.mp hs with hs | hs
        · exact ⟨(hacc s hs).1, (hacc s hs).2.1⟩
        · rcases List.mem_singleton.mp hs with rfl
          exact ⟨hst1, hstn⟩
      · exact chain'_append_singleton acc _ (fun s hs => (hacc s hs).2.2) hch
  | cons line rest ih =>
    intro i cur st acc hn hemp hne hst1 hacc hch
    have hn' : (i + 1) + rest.length = n := by simp at hn; omega
    simp only [gofsGo]
    by_cases hb : isNewCmd line = true
    · rw [if_pos hb]
      by_cases hc : cur.isEmpty = true
      · rw [if_pos hc]
        refine ih (i + 1) [pyRStrip line] (i + 1) acc hn' ?_ ?_ ?_ ?_ hch
        · intro h; simp at h
        · intro _; exact le_refl _
        · omega
        · intro s hs
          rw [hemp hc] at hs
          cases hs
      · rw [if_neg hc]
        have hc' : cur.isEmpty = false := by simpa using hc
        have hsti : st ≤ i := hne hc'
        refine ih (i + 1) [pyRStrip line] (i + 1)
          (acc ++ [⟨pyStrip (joinNL cur), st, i⟩]) hn' ?_ ?_ ?_ ?_ ?_
        · intro h; simp at h
        · intro _; exact le_refl _
        · omega
        · intro s hs
          rcases List.mem_append.mp hs with hs | hs
          · have h1 := hacc s hs
            exact ⟨h1.1, h1.2.1, by omega⟩
          · rcases List.mem_singleton.mp hs with rfl
            exact ⟨hst1, hsti, Nat.lt_succ_self i⟩
        · exact chain'_append_singleton acc _ (fun s hs => (hacc s hs).2.2) hch
    · rw [if_neg hb]
      by_cases hc : cur.isEmpty = true
      · rw [if_pos hc]
        refine ih (i + 1) cur st acc hn' hemp ?_ hst1 hacc hch
        intro h; rw [hc] at h; cases h
      · rw [if_neg hc]
        have hc' : cur.isEmpty = false := by simpa using hc
        have hsti : st ≤ i := hne hc'
        refine ih (i + 1) (cur ++ [pyRStrip line]) st acc hn' ?_ ?_ hst1 hacc hch
        · intro h; simp at h
        · intro _; omega

theorem get_out_file_steps_sound (c : Option String) :
    (∀ s ∈ get_out_file_steps c, 1 ≤ s.start ∧ s.start ≤ s.stop) ∧
    List.Chain' (fun a b => a.stop < b.start) (get_out_file_steps c) := by
  cases c with
  | none => simp [get_out_file_steps]
  | some str =>
    exact gofsGo_invariant (pySplitLines str).length (pySplitLines str) 0 [] 1 []
      (by simp) (fun _ => rfl) (by intro h; simp at h) (le_refl 1)
      (by intro s hs; cases hs) List.chain'_nil

theorem chain_stop_lt_all (s : Step) (l : List Step)
    (hss : ∀ t ∈ l, t.start ≤ t.stop)
    (hch : List.Chain' (fun a b => a.stop < b.start) (s :: l)) :
    ∀ t ∈ l, s.stop < t.start := by
  induction l generalizing s with
  | nil => intro t ht; cases ht
  | cons t rest ih =>
    intro u hu
    have h1 : s.stop < t.start := (List.chain'_cons.mp hch).1
    cases hu with
    | head => exact h1
    | tail _ hu' =>
      have h2 := ih t (fun v hv => hss v (List.mem_cons_of_mem _ hv))
        (List.chain'_cons.mp hch).2 u hu'
      have h3 : t.start ≤ t.stop := hss t (List.mem_cons_self _ _)
      omega

theorem countP_contains_le_one (k : Nat) (l : List Step)
    (hss : ∀ t ∈ l, t.start ≤ t.stop)
    (hch : List.Chain' (fun a b => a.stop < b.start) l) :
    l.countP (stepContains k) ≤ 1 := by
  induction l with
  | nil => simp
  | cons s rest ih =>
    have hch' : List.Chain' (fun a b => a.stop < b.start) rest := hch.tail
    have hss' : ∀ t ∈ rest, t.start ≤ t.stop := fun t ht => hss t (List.mem_cons_of_mem _ ht)
    by_cases hp : stepContains k s = true
    · have hpos : List.countP (stepContains k) (s :: rest) =
          List.countP (stepContains k) rest + 1 := by simp [hp]
      have hz : rest.countP (stepContains k) = 0 := by
        rw [List.countP_eq_zero]
        intro t ht
        have h4 := chain_stop_lt_all s rest hss' hch t ht
        simp only [stepContains, Bool.and_eq_true, decide_eq_true_eq] at hp ⊢
        intro hcontra
        omega
      omega
    · have hneg : List.countP (stepContains k) (s :: rest) =
          List.countP (stepContains k) rest := by simp [hp]
      rw [hneg]
      exact ih hss' hch'

/-- C5: for every input file the Statement Segmenter's step list has
1-indexed ranges with `start ≤ stop` for every step, consecutive ranges are
strictly ascending and disjoint (`prev.stop < next.start`), and any given
line number is contained in at most one step of the list. -/
theorem claim_C5_segmenter_ranges (c : Option String) :
    (∀ s ∈ get_out_file_steps c, 1 ≤ s.start ∧ s.start ≤ s.stop) ∧
    List.Chain' (fun a b => a.stop < b.start) (get_out_file_steps c) ∧
    ∀ k : Nat, (get_out_file_steps c).countP (stepContains k) ≤ 1 := by
  obtain ⟨h1, h2⟩ := get_out_file_steps_sound c
  exact ⟨h1, h2, fun k => countP_contains_le_one k _ (fun t ht => (h1 t ht).2) h2⟩

/-- C5 witness: concrete two-step file; ranges are well-formed and line 1
lies in at most one step. -/
theorem claim_C5_witness :
    ((⟨"SELECT 1;\nfoo", 1, 2⟩ : Step) ∈ get_out_file_steps (some "SELECT 1;\nfoo\nDROP a;\n") ∧
      1 ≤ (⟨"SELECT 1;\nfoo", 1, 2⟩ : Step).start ∧
      (⟨"SELECT 1;\nfoo", 1, 2⟩ : Step).start ≤ (⟨"SELECT 1;\nfoo", 1, 2⟩ : Step).stop) ∧
    (get_out_file_steps (some "SELECT 1;\nfoo\nDROP a;\n")).countP (stepContains 1) ≤ 1 := by
  constructor
  · refine ⟨by decide, ?_, ?_⟩
    · exact ((claim_C5_segmenter_ranges (some "SELECT 1;\nfoo\nDROP a;\n")).1
        ⟨"SELECT 1;\nfoo", 1, 2⟩ (by decide)).1
    · exact ((claim_C5_segmenter_ranges (some "SELECT 1;\nfoo\nDROP a;\n")).1
        ⟨"SELECT 1;\nfoo", 1, 2⟩ (by decide)).2
  · exact (claim_C5_segmenter_ranges (some "SELECT 1;\nfoo\nDROP a;\n")).2.2 1

theorem find?_eq_of_countP_one {α : Type} (p : α → Bool) (l : List α) (s : α)
    (hcount : l.countP p = 1) (hmem : s ∈ l) (hp : p s = true) :
    l.find? p = some s := by
  induction l with
  | nil => cases hmem
  | cons a rest ih =>
    by_cases ha : p a = true
    · have hfind : List.find? p (a :: rest) = some a := by simp [ha]
      rw [hfind]
      cases hmem with
      | head => rfl
      | tail _ hmem' =>
        exfalso
        have hcons : List.countP p (a :: rest) = List.countP p rest + 1 := by simp [ha]
        have h0 : rest.countP p = 0 := by omega
        exact (List.countP_eq_zero.mp h0 s hmem') hp
    · have hfind : List.find? p (a :: rest) = List.find? p rest := by simp [ha]
      rw [hfind]
      cases hmem with
      | head => exact absurd hp ha
      | tail _ hmem' =>
        have hcons : List.countP p (a :: rest) = List.countP p rest := by simp [ha]
        exact ih (by omega) hmem'

/-- C1 (amended): for a hunk whose `act_start` is contained in exactly one
step of the actual file (witnessed by the containing step `s` together with
the count-one hypothesis), the Alignment Engine's entry at the hunk's
position carries that step's `sql` text verbatim, and — provided the
stripped `-`/`+` line concatenations are non-empty — its expected and
actual texts are exactly those stripped concatenations (when a
concatenation strips to empty, the placeholder of claim C10 is used
instead; see the counterexample). -/
theorem claim_C1_alignment (diff : String) (actC : Option String) (i : Nat)
    (hk : Hunk) (s : Step)
    (hh : (parseHunks diff)[i]? = some hk)
    (hmem : s ∈ get_out_file_steps actC)
    (hcont : stepContains hk.act_start s = true)
    (huniq : (get_out_file_steps actC).countP (stepContains hk.act_start) = 1)
    (hE : hunkExpText hk ≠ "")
    (hA : hunkActText hk ≠ "") :
    (mismatching_steps diff actC)[i]? =
      some ⟨s.sql, hunkExpText hk, hunkActText hk⟩ := by
  have hfind := find?_eq_of_countP_one (stepContains hk.act_start)
    (get_out_file_steps actC) s huniq hmem hcont
  unfold mismatching_steps
  rw [List.getElem?_map, hh]
  simp [buildMismatchEntry, hfind, orPlaceholder, hE, hA]

/-- C1 counterexample: a hunk with no `-` content lines that aligns to a
step gets the placeholder `(no expected output for this hunk)` as
expectedText, not the (empty) stripped concatenation of its `-` lines. -/
theorem claim_C1_counterexample :
    mismatching_steps "@@ -5,0 +5,1 @@\n+new value" (some "x\ny\nSELECT 1;\n\n\n\n\n\n") =
      [⟨"SELECT 1;", "(no expected output for this hunk)", "new value"⟩] ∧
    hunkExpText ⟨5, 5, ["+new value"]⟩ = "" ∧
    parseHunks "@@ -5,0 +5,1 @@\n+new value" = [⟨5, 5, ["+new value"]⟩] ∧
    "(no expected output for this hunk)" ≠ "" := by decide

/-- C1 witness: the spec's gamma scenario — hunk `@@ -5,2 +5,2 @@` with one
`-old value` and one `+new value` line, actual file step spanning lines
3–8 with SQL `SELECT 1;`. -/
theorem claim_C1_witness :
    (mismatching_steps "@@ -5,2 +5,2 @@\n-old value\n+new value"
        (some "x\ny\nSELECT 1;\n\n\n\n\n\n"))[0]? =
      some ⟨"SELECT 1;", "old value", "new value"⟩ := by
  have h := claim_C1_alignment "@@ -5,2 +5,2 @@\n-old value\n+new value"
    (some "x\ny\nSELECT 1;\n\n\n\n\n\n") 0 ⟨5, 5, ["-old value", "+new value"]⟩
    ⟨"SELECT 1;", 3, 8⟩ (by decide) (by decide) (by decide) (by decide) (by decide) (by decide)
  rw [h]; decide
